import Mathlib

/-!
Shallow embedding of the `RealEstateBondFHE` Solidity contract
(batch submission ledger with FHE decryption request/callback protocol).

Modelling conventions:
* addresses, batch ids, request ids and timestamps are `Nat`;
* Solidity mappings are association lists with a default value for
  absent keys (`mget` / `mset`), matching storage-slot defaulting;
* an `euint32` ciphertext is a pair `(handle, plaintext)`: the handle is
  the opaque on-chain `bytes32` reference (0 = uninitialized, exactly as
  in the FHE library), the plaintext is the value the external
  coprocessor associates to the handle; `FHE.asEuint32` and `FHE.add`
  allocate a fresh handle each call, as the coprocessor does;
* `keccak256(abi.encode(cts, address(this)))` is modelled injectively as
  `some (valueHandle, sharesHandle, selfAddr)`, with `none` playing the
  role of `bytes32(0)` (the zero hash is never a keccak image);
* `FHE.checkSignatures` is an external verification whose outcome is
  passed to the callback as the boolean `sigOk`;
* each entry point returns `Option Err × ContractState`: `(some e, st)`
  models `revert e` (the EVM discards all writes, so the pre-state is
  returned), `(none, st')` a successful call; the embedding performs
  writes in source order, and all error returns happen before any write.
-/

/-- Modulus of the `euint32` type (2^32). -/
def W : Nat := 4294967296

/-- A Solidity storage mapping: association list plus a default. -/
abbrev Map (κ α : Type) := List (κ × α)

/-- Mapping lookup with default `d` (first binding wins). -/
def mget {κ α : Type} [DecidableEq κ] (d : α) : Map κ α → κ → α
  | [], _ => d
  | (k, v) :: m, k2 => if k = k2 then v else mget d m k2

/-- Mapping update (shadowing write). -/
def mset {κ α : Type} (m : Map κ α) (k : κ) (v : α) : Map κ α :=
  (k, v) :: m

/-- An `euint32` ciphertext: opaque handle plus coprocessor-side plaintext. -/
abbrev Ct := Nat × Nat

/-- The uninitialized ciphertext slot (handle 0, as in Solidity storage). -/
def ct0 : Ct := (0, 0)

/-- Typed revert reasons of the contract. -/
inductive Err where
  | NotOwner
  | NotProvider
  | Paused
  | CooldownActive
  | BatchDoesNotExist
  | BatchClosed
  | InvalidBatch
  | ReplayAttempt
  | StateMismatch
  | InvalidProof
deriving DecidableEq

/-- The commitment-hash type: `none` is `bytes32(0)`, `some` a keccak image. -/
abbrev HashV := Option (Nat × Nat × Nat)

/-- Events emitted by the contract. -/
inductive Event where
  | OwnershipTransferred (previousOwner newOwner : Nat)
  | ProviderAdded (provider : Nat)
  | ProviderRemoved (provider : Nat)
  | CooldownSecondsSet (oldCooldown newCooldown : Nat)
  | Paused (account : Nat)
  | Unpaused (account : Nat)
  | BatchOpened (batchId : Nat)
  | BatchClosed (batchId : Nat)
  | DataSubmitted (provider batchId encryptedValueCiphertext encryptedSharesCiphertext : Nat)
  | DecryptionRequested (requestId batchId : Nat) (stateHash : HashV)
  | DecryptionCompleted (requestId batchId totalValue totalShares : Nat)
deriving DecidableEq

/-- `struct DecryptionContext`. -/
structure DecryptionContext where
  batchId : Nat
  stateHash : HashV
  processed : Bool
deriving DecidableEq

/-- Default (all-zero) decryption context of an untouched mapping slot. -/
def dctx0 : DecryptionContext := ⟨0, none, false⟩

/-- `struct Batch`. -/
structure Batch where
  exists_ : Bool
  closed : Bool
deriving DecidableEq

/-- Default (all-zero) batch record of an untouched mapping slot. -/
def batch0 : Batch := ⟨false, false⟩

/-- Full storage of the contract, plus the coprocessor-environment data
(fresh-handle counter, fresh-request counter) and the event log. -/
structure ContractState where
  owner : Nat
  isProvider : Map Nat Bool
  lastSubmissionTime : Map Nat Nat
  lastDecryptionRequestTime : Map Nat Nat
  cooldownSeconds : Nat
  paused : Bool
  decryptionContexts : Map Nat DecryptionContext
  batches : Map Nat Batch
  totalEncryptedValue : Ct
  totalEncryptedShares : Ct
  batchEncryptedValue : Map Nat Ct
  batchEncryptedShares : Map Nat Ct
  providerEncryptedValue : Map (Nat × Nat) Ct
  providerEncryptedShares : Map (Nat × Nat) Ct
  nextHandle : Nat
  nextRequestId : Nat
  selfAddr : Nat
  events : List Event
deriving DecidableEq

/-- `FHE.asEuint32(v)`: fresh handle for the (32-bit truncated) plaintext. -/
def asEuint32 (st : ContractState) (v : Nat) : Ct × ContractState :=
  ((st.nextHandle, v % W), { st with nextHandle := st.nextHandle + 1 })

/-- `FHE.add(a, b)`: fresh handle for the wrapping 32-bit sum. -/
def addCt (st : ContractState) (a b : Ct) : Ct × ContractState :=
  ((st.nextHandle, (a.2 + b.2) % W), { st with nextHandle := st.nextHandle + 1 })

/-- `FHE.isInitialized`: the handle is nonzero. -/
def isInitialized (c : Ct) : Bool := c.1 != 0

/-- `_initIfNeeded()`: lazily initialize the two global totals (only). -/
def initIfNeeded (st : ContractState) : ContractState :=
  let st1 :=
    if st.totalEncryptedValue.1 = 0 then
      let p := asEuint32 st 0
      { p.2 with totalEncryptedValue := p.1 }
    else st
  if st1.totalEncryptedShares.1 = 0 then
    let p := asEuint32 st1 0
    { p.2 with totalEncryptedShares := p.1 }
  else st1

/-- `_requireInitialized(val)` (defined in the source, never called there). -/
def requireInitialized (c : Ct) : Option Err × Ct :=
  if isInitialized c then (none, c) else (some Err.InvalidProof, c)

/-- `_hashCiphertexts(batchId)`: keccak over the two ciphertext handles of
the batch and the contract address, modelled injectively. -/
def hashCiphertexts (st : ContractState) (batchId : Nat) : HashV :=
  some ((mget ct0 st.batchEncryptedValue batchId).1,
        (mget ct0 st.batchEncryptedShares batchId).1,
        st.selfAddr)

/-- Constructor: deployer becomes owner, cooldown 60s, totals initialized. -/
def init (deployer self : Nat) : ContractState :=
  initIfNeeded
    { owner := deployer
      isProvider := []
      lastSubmissionTime := []
      lastDecryptionRequestTime := []
      cooldownSeconds := 60
      paused := false
      decryptionContexts := []
      batches := []
      totalEncryptedValue := ct0
      totalEncryptedShares := ct0
      batchEncryptedValue := []
      batchEncryptedShares := []
      providerEncryptedValue := []
      providerEncryptedShares := []
      nextHandle := 1
      nextRequestId := 0
      selfAddr := self
      events := [] }

/-- `transferOwnership(newOwner)`. -/
def transferOwnership (st : ContractState) (sender newOwner : Nat) :
    Option Err × ContractState :=
  if sender ≠ st.owner then (some Err.NotOwner, st)
  else
    (none, { st with owner := newOwner,
                     events := st.events ++ [Event.OwnershipTransferred st.owner newOwner] })

/-- `addProvider(provider)`. -/
def addProvider (st : ContractState) (sender provider : Nat) :
    Option Err × ContractState :=
  if sender ≠ st.owner then (some Err.NotOwner, st)
  else
    (none, { st with isProvider := mset st.isProvider provider true,
                     events := st.events ++ [Event.ProviderAdded provider] })

/-- `removeProvider(provider)`. -/
def removeProvider (st : ContractState) (sender provider : Nat) :
    Option Err × ContractState :=
  if sender ≠ st.owner then (some Err.NotOwner, st)
  else
    (none, { st with isProvider := mset st.isProvider provider false,
                     events := st.events ++ [Event.ProviderRemoved provider] })

/-- `setCooldownSeconds(newCooldownSeconds)`. -/
def setCooldownSeconds (st : ContractState) (sender newCooldownSeconds : Nat) :
    Option Err × ContractState :=
  if sender ≠ st.owner then (some Err.NotOwner, st)
  else
    (none, { st with cooldownSeconds := newCooldownSeconds,
                     events := st.events ++
                       [Event.CooldownSecondsSet st.cooldownSeconds newCooldownSeconds] })

/-- `pause()`: `onlyOwner whenNotPaused`. -/
def pause (st : ContractState) (sender : Nat) : Option Err × ContractState :=
  if sender ≠ st.owner then (some Err.NotOwner, st)
  else if st.paused then (some Err.Paused, st)
  else (none, { st with paused := true, events := st.events ++ [Event.Paused sender] })

/-- `unpause()`: `onlyOwner` (no pause check). -/
def unpause (st : ContractState) (sender : Nat) : Option Err × ContractState :=
  if sender ≠ st.owner then (some Err.NotOwner, st)
  else (none, { st with paused := false, events := st.events ++ [Event.Unpaused sender] })

/-- `openBatch(batchId)`: `onlyOwner whenNotPaused`. -/
def openBatch (st : ContractState) (sender batchId : Nat) :
    Option Err × ContractState :=
  if sender ≠ st.owner then (some Err.NotOwner, st)
  else if st.paused then (some Err.Paused, st)
  else if (mget batch0 st.batches batchId).exists_ then (some Err.InvalidBatch, st)
  else
    (none, { st with batches := mset st.batches batchId ⟨true, false⟩,
                     events := st.events ++ [Event.BatchOpened batchId] })

/-- `closeBatch(batchId)`: `onlyOwner whenNotPaused`. -/
def closeBatch (st : ContractState) (sender batchId : Nat) :
    Option Err × ContractState :=
  if sender ≠ st.owner then (some Err.NotOwner, st)
  else if st.paused then (some Err.Paused, st)
  else if (mget batch0 st.batches batchId).exists_ = false then (some Err.BatchDoesNotExist, st)
  else if (mget batch0 st.batches batchId).closed then (some Err.BatchClosed, st)
  else
    (none, { st with batches := mset st.batches batchId ⟨true, true⟩,
                     events := st.events ++ [Event.BatchClosed batchId] })

/-- Success path of `submitData`, in source statement order: cooldown
timestamp, `_initIfNeeded`, two encryptions, provider records (overwrite),
batch totals (accumulate), global totals (accumulate), event. -/
def submitBody (st : ContractState) (sender now batchId value shares : Nat) :
    ContractState :=
  let stA := { st with lastSubmissionTime := mset st.lastSubmissionTime sender now }
  let stB := initIfNeeded stA
  let p1 := asEuint32 stB value
  let p2 := asEuint32 p1.2 shares
  let ev := p1.1
  let es := p2.1
  let stE := { p2.2 with
    providerEncryptedValue := mset p2.2.providerEncryptedValue (batchId, sender) ev,
    providerEncryptedShares := mset p2.2.providerEncryptedShares (batchId, sender) es }
  let p3 := addCt stE (mget ct0 stE.batchEncryptedValue batchId) ev
  let stF := { p3.2 with batchEncryptedValue := mset p3.2.batchEncryptedValue batchId p3.1 }
  let p4 := addCt stF (mget ct0 stF.batchEncryptedShares batchId) es
  let stG := { p4.2 with batchEncryptedShares := mset p4.2.batchEncryptedShares batchId p4.1 }
  let p5 := addCt stG stG.totalEncryptedValue ev
  let stH := { p5.2 with totalEncryptedValue := p5.1 }
  let p6 := addCt stH stH.totalEncryptedShares es
  let stI := { p6.2 with totalEncryptedShares := p6.1 }
  { stI with events := stI.events ++ [Event.DataSubmitted sender batchId ev.1 es.1] }

/-- `submitData(batchId, value, shares)`: `onlyProvider whenNotPaused`,
then cooldown, existence and open checks, then the success path. -/
def submitData (st : ContractState) (sender now batchId value shares : Nat) :
    Option Err × ContractState :=
  if mget false st.isProvider sender = false then (some Err.NotProvider, st)
  else if st.paused then (some Err.Paused, st)
  else if now < mget 0 st.lastSubmissionTime sender + st.cooldownSeconds then
    (some Err.CooldownActive, st)
  else if (mget batch0 st.batches batchId).exists_ = false then (some Err.BatchDoesNotExist, st)
  else if (mget batch0 st.batches batchId).closed then (some Err.BatchClosed, st)
  else (none, submitBody st sender now batchId value shares)

/-- Success path of `requestBatchDecryption`: cooldown timestamp, state
hash, fresh request id, new context, event. -/
def requestBody (st : ContractState) (sender now batchId : Nat) : ContractState :=
  let st1 := { st with
    lastDecryptionRequestTime := mset st.lastDecryptionRequestTime sender now }
  let sh := hashCiphertexts st1 batchId
  let rid := st1.nextRequestId
  { st1 with
    nextRequestId := rid + 1,
    decryptionContexts := mset st1.decryptionContexts rid ⟨batchId, sh, false⟩,
    events := st1.events ++ [Event.DecryptionRequested rid batchId sh] }

/-- `requestBatchDecryption(batchId)`: `onlyOwner whenNotPaused`, separate
cooldown on decryption-request timestamps, batch must exist (open or closed). -/
def requestBatchDecryption (st : ContractState) (sender now batchId : Nat) :
    Option Err × ContractState :=
  if sender ≠ st.owner then (some Err.NotOwner, st)
  else if st.paused then (some Err.Paused, st)
  else if now < mget 0 st.lastDecryptionRequestTime sender + st.cooldownSeconds then
    (some Err.CooldownActive, st)
  else if (mget batch0 st.batches batchId).exists_ = false then
    (some Err.BatchDoesNotExist, st)
  else (none, requestBody st sender now batchId)

/-- `myCallback(requestId, cleartexts, proof)`: replay guard, state-hash
recheck, signature check, then mark processed and emit the totals.
`cleartexts` is the decoded `(uint32, uint32)` payload; `sigOk` is the
outcome of `FHE.checkSignatures(requestId, cleartexts, proof)`. -/
def myCallback (st : ContractState) (requestId : Nat) (cleartexts : Nat × Nat)
    (sigOk : Bool) : Option Err × ContractState :=
  let ctx := mget dctx0 st.decryptionContexts requestId
  if ctx.processed then (some Err.ReplayAttempt, st)
  else if hashCiphertexts st ctx.batchId ≠ ctx.stateHash then (some Err.StateMismatch, st)
  else if sigOk = false then (some Err.InvalidProof, st)
  else
    (none, { st with
      decryptionContexts := mset st.decryptionContexts requestId
        ⟨ctx.batchId, ctx.stateHash, true⟩,
      events := st.events ++
        [Event.DecryptionCompleted requestId ctx.batchId (cleartexts.1 % W) (cleartexts.2 % W)] })

/-- One external call to the contract (sender, timestamp and payload). -/
inductive Op where
  | transferOwnership (sender newOwner : Nat)
  | addProvider (sender provider : Nat)
  | removeProvider (sender provider : Nat)
  | setCooldownSeconds (sender newCooldownSeconds : Nat)
  | pause (sender : Nat)
  | unpause (sender : Nat)
  | openBatch (sender batchId : Nat)
  | closeBatch (sender batchId : Nat)
  | submitData (sender now batchId value shares : Nat)
  | requestBatchDecryption (sender now batchId : Nat)
  | myCallback (requestId : Nat) (cleartexts : Nat × Nat) (sigOk : Bool)

/-- Dispatch one call. -/
def applyOp (st : ContractState) : Op → Option Err × ContractState
  | Op.transferOwnership sender newOwner => transferOwnership st sender newOwner
  | Op.addProvider sender provider => addProvider st sender provider
  | Op.removeProvider sender provider => removeProvider st sender provider
  | Op.setCooldownSeconds sender n => setCooldownSeconds st sender n
  | Op.pause sender => pause st sender
  | Op.unpause sender => unpause st sender
  | Op.openBatch sender batchId => openBatch st sender batchId
  | Op.closeBatch sender batchId => closeBatch st sender batchId
  | Op.submitData sender now batchId value shares => submitData st sender now batchId value shares
  | Op.requestBatchDecryption sender now batchId => requestBatchDecryption st sender now batchId
  | Op.myCallback requestId cleartexts sigOk => myCallback st requestId cleartexts sigOk

/-- Post-state of one call (a reverted call leaves the state unchanged). -/
def execOp (st : ContractState) (op : Op) : ContractState :=
  (applyOp st op).2

/-- Post-state of a sequence of calls. -/
def execTrace (st : ContractState) : List Op → ContractState
  | [] => st
  | op :: tr => execTrace (execOp st op) tr

/-- Sum of the `value` arguments of the accepted `submitData` calls to
batch `b` along a trace. -/
def accSumV (b : Nat) : ContractState → List Op → Nat
  | _, [] => 0
  | st, op :: tr =>
    (match op with
     | Op.submitData sender now batchId value shares =>
       if batchId = b ∧ (submitData st sender now batchId value shares).1 = none
       then value else 0
     | _ => 0) + accSumV b (execOp st op) tr

/-- Sum of the `shares` arguments of the accepted `submitData` calls to
batch `b` along a trace. -/
def accSumS (b : Nat) : ContractState → List Op → Nat
  | _, [] => 0
  | st, op :: tr =>
    (match op with
     | Op.submitData sender now batchId value shares =>
       if batchId = b ∧ (submitData st sender now batchId value shares).1 = none
       then shares else 0
     | _ => 0) + accSumS b (execOp st op) tr

/-- 32-bit value of the last accepted `submitData` call by provider
`p` to batch `b` along a trace (`cur` if none). -/
def lastAccV (b p : Nat) : Nat → ContractState → List Op → Nat
  | cur, _, [] => cur
  | cur, st, op :: tr =>
    lastAccV b p
      (match op with
       | Op.submitData sender now batchId value shares =>
         if batchId = b ∧ sender = p ∧ (submitData st sender now batchId value shares).1 = none
         then value % W else cur
       | _ => cur)
      (execOp st op) tr

/-- Environment well-formedness: all stored handles are below the fresh
counter, the global totals are initialized, and all coprocessor-side
plaintexts are reduced mod 2^32. -/
def EnvInv (st : ContractState) : Prop :=
  0 < st.nextHandle ∧
  0 < st.totalEncryptedValue.1 ∧ st.totalEncryptedValue.1 < st.nextHandle ∧
  0 < st.totalEncryptedShares.1 ∧ st.totalEncryptedShares.1 < st.nextHandle ∧
  st.totalEncryptedValue.2 < W ∧ st.totalEncryptedShares.2 < W ∧
  (∀ q ∈ st.batchEncryptedValue, q.2.1 < st.nextHandle ∧ q.2.2 < W) ∧
  (∀ q ∈ st.batchEncryptedShares, q.2.1 < st.nextHandle ∧ q.2.2 < W) ∧
  (∀ q ∈ st.providerEncryptedValue, q.2.1 < st.nextHandle ∧ q.2.2 < W) ∧
  (∀ q ∈ st.providerEncryptedShares, q.2.1 < st.nextHandle ∧ q.2.2 < W)

/-- Batch-record sanity: a closed batch exists. -/
def BatchWF (st : ContractState) : Prop :=
  ∀ q ∈ st.batches, q.2.closed = true → q.2.exists_ = true

instance (st : ContractState) : Decidable (EnvInv st) := by
  unfold EnvInv; infer_instance

instance (st : ContractState) : Decidable (BatchWF st) := by
  unfold BatchWF; infer_instance

/-! ### Concrete scenario (deployer 100, contract address 55, provider 3):
open batch 1, submit, request decryption, then various continuations. -/

/-- Freshly deployed contract. -/
def st0 : ContractState := init 100 55

/-- After `addProvider(3)`. -/
def stProv : ContractState := execOp st0 (Op.addProvider 100 3)

/-- After `openBatch(1)`. -/
def stOpen : ContractState := execOp stProv (Op.openBatch 100 1)

/-- After provider 3 submits `(value 100, shares 10)` to batch 1 at time 60. -/
def stSub : ContractState := execOp stOpen (Op.submitData 3 60 1 100 10)

/-- After the owner requests decryption of batch 1 (request id 0). -/
def stReq : ContractState := execOp stSub (Op.requestBatchDecryption 100 60 1)

/-- After the owner pauses, with the decryption request still pending. -/
def stReqPaused : ContractState := execOp stReq (Op.pause 100)

/-- After a second accepted submission lands behind the pending request. -/
def stReqSub : ContractState := execOp stReq (Op.submitData 3 120 1 50 5)

/-- After the pending callback is delivered and accepted (request id 0). -/
def stDone : ContractState := execOp stReq (Op.myCallback 0 (110, 10) true)

/-- The contract paused right after deployment. -/
def stPaused : ContractState := execOp st0 (Op.pause 100)

/-- After `closeBatch(1)` on the submitted-to batch. -/
def stClosed : ContractState := execOp stSub (Op.closeBatch 100 1)

/-! ### Mapping lemmas -/

theorem mget_mset_self {κ α : Type} [DecidableEq κ] (d : α) (m : Map κ α) (k : κ) (v : α) :
    mget d (mset m k v) k = v := by
  simp [mget, mset]

theorem mget_mset_ne {κ α : Type} [DecidableEq κ] (d : α) (m : Map κ α) {k k2 : κ} (v : α)
    (h : k ≠ k2) : mget d (mset m k v) k2 = mget d m k2 := by
  simp [mget, mset, h]

theorem mget_prop {κ α : Type} [DecidableEq κ] {P : α → Prop} {d : α} {m : Map κ α}
    (hd : P d) (hm : ∀ q ∈ m, P q.2) (k : κ) : P (mget d m k) := by
  induction m with
  | nil => exact hd
  | cons q m ih =>
    obtain ⟨k1, v1⟩ := q
    simp only [mget]
    split
    · exact hm ⟨k1, v1⟩ (List.mem_cons_self _ _)
    · exact ih fun q hq => hm q (List.mem_cons_of_mem _ hq)

/-! ### Characterization of the success paths -/

theorem initIfNeeded_eq (st : ContractState) (h1 : st.totalEncryptedValue.1 ≠ 0)
    (h2 : st.totalEncryptedShares.1 ≠ 0) : initIfNeeded st = st := by
  simp [initIfNeeded, h1, h2]

theorem submitBody_eq (st : ContractState) (sender now batchId value shares : Nat)
    (h1 : st.totalEncryptedValue.1 ≠ 0) (h2 : st.totalEncryptedShares.1 ≠ 0) :
    submitBody st sender now batchId value shares =
    { st with
      lastSubmissionTime := mset st.lastSubmissionTime sender now,
      providerEncryptedValue := mset st.providerEncryptedValue (batchId, sender)
        (st.nextHandle, value % W),
      providerEncryptedShares := mset st.providerEncryptedShares (batchId, sender)
        (st.nextHandle + 1, shares % W),
      batchEncryptedValue := mset st.batchEncryptedValue batchId
        (st.nextHandle + 2, ((mget ct0 st.batchEncryptedValue batchId).2 + value) % W),
      batchEncryptedShares := mset st.batchEncryptedShares batchId
        (st.nextHandle + 3, ((mget ct0 st.batchEncryptedShares batchId).2 + shares) % W),
      totalEncryptedValue := (st.nextHandle + 4, (st.totalEncryptedValue.2 + value) % W),
      totalEncryptedShares := (st.nextHandle + 5, (st.totalEncryptedShares.2 + shares) % W),
      nextHandle := st.nextHandle + 6,
      events := st.events ++
        [Event.DataSubmitted sender batchId st.nextHandle (st.nextHandle + 1)] } := by
  simp [submitBody, initIfNeeded, asEuint32, addCt, h1, h2, Nat.add_mod_mod]

theorem requestBody_eq (st : ContractState) (sender now batchId : Nat) :
    requestBody st sender now batchId =
    { st with
      lastDecryptionRequestTime := mset st.lastDecryptionRequestTime sender now,
      nextRequestId := st.nextRequestId + 1,
      decryptionContexts := mset st.decryptionContexts st.nextRequestId
        ⟨batchId, hashCiphertexts st batchId, false⟩,
      events := st.events ++
        [Event.DecryptionRequested st.nextRequestId batchId (hashCiphertexts st batchId)] } := by
  simp [requestBody, hashCiphertexts]

theorem submitData_none_eq (st : ContractState) (sender now batchId value shares : Nat)
    (h : (submitData st sender now batchId value shares).1 = none) :
    submitData st sender now batchId value shares =
      (none, submitBody st sender now batchId value shares) := by
  unfold submitData at h ⊢
  repeat' split at h <;> simp_all

theorem request_none_eq (st : ContractState) (sender now batchId : Nat)
    (h : (requestBatchDecryption st sender now batchId).1 = none) :
    requestBatchDecryption st sender now batchId =
      (none, requestBody st sender now batchId) := by
  unfold requestBatchDecryption at h ⊢
  repeat' split at h <;> simp_all

/-! ### A reverted call leaves the state untouched (no write precedes a check) -/

theorem applyOp_some (st : ContractState) (op : Op)
    (h : (applyOp st op).1.isSome = true) : (applyOp st op).2 = st := by
  cases op <;>
    simp only [applyOp, transferOwnership, addProvider, removeProvider, setCooldownSeconds,
      pause, unpause, openBatch, closeBatch, submitData, requestBatchDecryption,
      myCallback] at h ⊢ <;>
    repeat' split at h <;> (try (repeat' split)) <;> simp_all

theorem submitBody_batches (st : ContractState) (sender now batchId value shares : Nat) :
    (submitBody st sender now batchId value shares).batches = st.batches := by
  simp only [submitBody, initIfNeeded, asEuint32, addCt]
  repeat' split
  all_goals rfl

theorem execOp_env_frame (st : ContractState) (op : Op)
    (h : ∀ a b c d e, op ≠ Op.submitData a b c d e) :
    (execOp st op).batchEncryptedValue = st.batchEncryptedValue ∧
    (execOp st op).batchEncryptedShares = st.batchEncryptedShares ∧
    (execOp st op).providerEncryptedValue = st.providerEncryptedValue ∧
    (execOp st op).providerEncryptedShares = st.providerEncryptedShares ∧
    (execOp st op).totalEncryptedValue = st.totalEncryptedValue ∧
    (execOp st op).totalEncryptedShares = st.totalEncryptedShares ∧
    (execOp st op).nextHandle = st.nextHandle ∧
    (execOp st op).selfAddr = st.selfAddr := by
  cases op <;>
    first
      | exact absurd rfl (h _ _ _ _ _)
      | (simp only [execOp, applyOp, transferOwnership, addProvider, removeProvider,
          setCooldownSeconds, pause, unpause, openBatch, closeBatch,
          requestBatchDecryption, requestBody, myCallback, hashCiphertexts] <;>
         repeat' split <;>
         first
           | exact ⟨rfl, rfl, rfl, rfl, rfl, rfl, rfl, rfl⟩
           | skip)

theorem envInv_submitBody (st : ContractState) (sender now batchId value shares : Nat)
    (hInv : EnvInv st) : EnvInv (submitBody st sender now batchId value shares) := by
  obtain ⟨h0, ha1, ha2, hb1, hb2, hc1, hc2, hm1, hm2, hm3, hm4⟩ := hInv
  have hW : 0 < W := by decide
  rw [submitBody_eq st sender now batchId value shares (by omega) (by omega)]
  unfold EnvInv
  simp only [mset, List.mem_cons]
  refine ⟨by omega, by omega, by omega, by omega, by omega,
    Nat.mod_lt _ hW, Nat.mod_lt _ hW, ?_, ?_, ?_, ?_⟩
  · rintro q (rfl | hq)
    · exact ⟨by show st.nextHandle + 2 < st.nextHandle + 6; omega, Nat.mod_lt _ hW⟩
    · exact ⟨by have := (hm1 q hq).1; omega, (hm1 q hq).2⟩
  · rintro q (rfl | hq)
    · exact ⟨by show st.nextHandle + 3 < st.nextHandle + 6; omega, Nat.mod_lt _ hW⟩
    · exact ⟨by have := (hm2 q hq).1; omega, (hm2 q hq).2⟩
  · rintro q (rfl | hq)
    · exact ⟨by show st.nextHandle < st.nextHandle + 6; omega, Nat.mod_lt _ hW⟩
    · exact ⟨by have := (hm3 q hq).1; omega, (hm3 q hq).2⟩
  · rintro q (rfl | hq)
    · exact ⟨by show st.nextHandle + 1 < st.nextHandle + 6; omega, Nat.mod_lt _ hW⟩
    · exact ⟨by have := (hm4 q hq).1; omega, (hm4 q hq).2⟩

theorem envInv_of_frame (st st2 : ContractState)
    (e1 : st2.batchEncryptedValue = st.batchEncryptedValue)
    (e2 : st2.batchEncryptedShares = st.batchEncryptedShares)
    (e3 : st2.providerEncryptedValue = st.providerEncryptedValue)
    (e4 : st2.providerEncryptedShares = st.providerEncryptedShares)
    (e5 : st2.totalEncryptedValue = st.totalEncryptedValue)
    (e6 : st2.totalEncryptedShares = st.totalEncryptedShares)
    (e7 : st2.nextHandle = st.nextHandle)
    (hInv : EnvInv st) : EnvInv st2 := by
  unfold EnvInv at hInv ⊢
  rw [e1, e2, e3, e4, e5, e6, e7]
  exact hInv

theorem envInv_execOp (st : ContractState) (op : Op) (hInv : EnvInv st) :
    EnvInv (execOp st op) := by
  cases op
  case submitData a b c d e =>
    by_cases hnone : (submitData st a b c d e).1 = none
    · rw [execOp, applyOp, submitData_none_eq st a b c d e hnone]
      exact envInv_submitBody st a b c d e hInv
    · have hsome : (applyOp st (Op.submitData a b c d e)).1.isSome = true := by
        simp [applyOp, Option.isSome_iff_ne_none, hnone]
      rw [execOp, applyOp_some st _ hsome]
      exact hInv
  case transferOwnership a b =>
    obtain ⟨e1, e2, e3, e4, e5, e6, e7, e8⟩ :=
      execOp_env_frame st (Op.transferOwnership a b) (fun _ _ _ _ _ h => Op.noConfusion h)
    exact envInv_of_frame _ _ e1 e2 e3 e4 e5 e6 e7 hInv
  case addProvider a b =>
    obtain ⟨e1, e2, e3, e4, e5, e6, e7, e8⟩ :=
      execOp_env_frame st (Op.addProvider a b) (fun _ _ _ _ _ h => Op.noConfusion h)
    exact envInv_of_frame _ _ e1 e2 e3 e4 e5 e6 e7 hInv
  case removeProvider a b =>
    obtain ⟨e1, e2, e3, e4, e5, e6, e7, e8⟩ :=
      execOp_env_frame st (Op.removeProvider a b) (fun _ _ _ _ _ h => Op.noConfusion h)
    exact envInv_of_frame _ _ e1 e2 e3 e4 e5 e6 e7 hInv
  case setCooldownSeconds a b =>
    obtain ⟨e1, e2, e3, e4, e5, e6, e7, e8⟩ :=
      execOp_env_frame st (Op.setCooldownSeconds a b) (fun _ _ _ _ _ h => Op.noConfusion h)
    exact envInv_of_frame _ _ e1 e2 e3 e4 e5 e6 e7 hInv
  case pause a =>
    obtain ⟨e1, e2, e3, e4, e5, e6, e7, e8⟩ :=
      execOp_env_frame st (Op.pause a) (fun _ _ _ _ _ h => Op.noConfusion h)
    exact envInv_of_frame _ _ e1 e2 e3 e4 e5 e6 e7 hInv
  case unpause a =>
    obtain ⟨e1, e2, e3, e4, e5, e6, e7, e8⟩ :=
      execOp_env_frame st (Op.unpause a) (fun _ _ _ _ _ h => Op.noConfusion h)
    exact envInv_of_frame _ _ e1 e2 e3 e4 e5 e6 e7 hInv
  case openBatch a b =>
    obtain ⟨e1, e2, e3, e4, e5, e6, e7, e8⟩ :=
      execOp_env_frame st (Op.openBatch a b) (fun _ _ _ _ _ h => Op.noConfusion h)
    exact envInv_of_frame _ _ e1 e2 e3 e4 e5 e6 e7 hInv
  case closeBatch a b =>
    obtain ⟨e1, e2, e3, e4, e5, e6, e7, e8⟩ :=
      execOp_env_frame st (Op.closeBatch a b) (fun _ _ _ _ _ h => Op.noConfusion h)
    exact envInv_of_frame _ _ e1 e2 e3 e4 e5 e6 e7 hInv
  case requestBatchDecryption a b c =>
    obtain ⟨e1, e2, e3, e4, e5, e6, e7, e8⟩ :=
      execOp_env_frame st (Op.requestBatchDecryption a b c) (fun _ _ _ _ _ h => Op.noConfusion h)
    exact envInv_of_frame _ _ e1 e2 e3 e4 e5 e6 e7 hInv
  case myCallback a b c =>
    obtain ⟨e1, e2, e3, e4, e5, e6, e7, e8⟩ :=
      execOp_env_frame st (Op.myCallback a b c) (fun _ _ _ _ _ h => Op.noConfusion h)
    exact envInv_of_frame _ _ e1 e2 e3 e4 e5 e6 e7 hInv

theorem envInv_init (deployer self : Nat) : EnvInv (init deployer self) := by
  unfold init initIfNeeded asEuint32 ct0 EnvInv
  norm_num [W]

theorem envInv_execTrace (tr : List Op) : ∀ st, EnvInv st → EnvInv (execTrace st tr) := by
  induction tr with
  | nil => intro st h; exact h
  | cons op tr ih => intro st h; exact ih _ (envInv_execOp st op h)

theorem submitBody_mget_spec (st : ContractState) (sender now bid v s b p : Nat)
    (hInv : EnvInv st) :
    ((mget ct0 (submitBody st sender now bid v s).batchEncryptedValue b).2 =
      if bid = b then ((mget ct0 st.batchEncryptedValue b).2 + v) % W
      else (mget ct0 st.batchEncryptedValue b).2) ∧
    ((mget ct0 (submitBody st sender now bid v s).batchEncryptedShares b).2 =
      if bid = b then ((mget ct0 st.batchEncryptedShares b).2 + s) % W
      else (mget ct0 st.batchEncryptedShares b).2) ∧
    ((mget ct0 (submitBody st sender now bid v s).providerEncryptedValue (b, p)).2 =
      if bid = b ∧ sender = p then v % W
      else (mget ct0 st.providerEncryptedValue (b, p)).2) := by
  obtain ⟨h0, ha1, ha2, hb1, hb2, hc1, hc2, hm1, hm2, hm3, hm4⟩ := hInv
  rw [submitBody_eq st sender now bid v s (by omega) (by omega)]
  refine ⟨?_, ?_, ?_⟩
  · by_cases hb : bid = b
    · subst hb; simp [mget_mset_self]
    · simp only [hb, if_false]
      show (mget ct0 (mset st.batchEncryptedValue bid _) b).2 = _
      rw [mget_mset_ne _ _ _ hb]
  · by_cases hb : bid = b
    · subst hb; simp [mget_mset_self]
    · simp only [hb, if_false]
      show (mget ct0 (mset st.batchEncryptedShares bid _) b).2 = _
      rw [mget_mset_ne _ _ _ hb]
  · by_cases hbp : bid = b ∧ sender = p
    · obtain ⟨hb, hp⟩ := hbp
      subst hb; subst hp
      simp [mget_mset_self]
    · have hne : (bid, sender) ≠ (b, p) := by
        intro hpair
        exact hbp ⟨congrArg Prod.fst hpair, congrArg Prod.snd hpair⟩
      simp only [hbp, if_false]
      show (mget ct0 (mset st.providerEncryptedValue (bid, sender) _) (b, p)).2 = _
      rw [mget_mset_ne _ _ _ hne]

theorem ledger_trace (b p : Nat) : ∀ (tr : List Op) (st : ContractState), EnvInv st →
    ((mget ct0 (execTrace st tr).batchEncryptedValue b).2 =
      ((mget ct0 st.batchEncryptedValue b).2 + accSumV b st tr) % W) ∧
    ((mget ct0 (execTrace st tr).batchEncryptedShares b).2 =
      ((mget ct0 st.batchEncryptedShares b).2 + accSumS b st tr) % W) ∧
    ((mget ct0 (execTrace st tr).providerEncryptedValue (b, p)).2 =
      lastAccV b p ((mget ct0 st.providerEncryptedValue (b, p)).2) st tr) := by
  intro tr
  induction tr with
  | nil =>
    intro st hInv
    obtain ⟨h0, ha1, ha2, hb1, hb2, hc1, hc2, hm1, hm2, hm3, hm4⟩ := hInv
    have hv : (mget ct0 st.batchEncryptedValue b).2 < W :=
      mget_prop (P := fun c : Ct => c.2 < W) (by decide) (fun q hq => (hm1 q hq).2) b
    have hs : (mget ct0 st.batchEncryptedShares b).2 < W :=
      mget_prop (P := fun c : Ct => c.2 < W) (by decide) (fun q hq => (hm2 q hq).2) b
    refine ⟨?_, ?_, rfl⟩
    · simp [execTrace, accSumV, Nat.mod_eq_of_lt hv]
    · simp [execTrace, accSumS, Nat.mod_eq_of_lt hs]
  | cons op tr ih =>
    intro st hInv
    have hInv2 := envInv_execOp st op hInv
    have IH := ih (execOp st op) hInv2
    cases op
    case submitData sender now bid v s =>
      by_cases hacc : (submitData st sender now bid v s).1 = none
      · have hstep : execOp st (Op.submitData sender now bid v s) =
            submitBody st sender now bid v s := by
          rw [execOp, applyOp, submitData_none_eq st sender now bid v s hacc]
        obtain ⟨hmv, hms, hmp⟩ := submitBody_mget_spec st sender now bid v s b p hInv
        rw [hstep] at IH
        refine ⟨?_, ?_, ?_⟩
        · simp only [execTrace, accSumV]
          rw [hstep]
          by_cases hb : bid = b
          · rw [if_pos ⟨hb, hacc⟩, IH.1, hmv, if_pos hb, Nat.mod_add_mod, Nat.add_assoc]
          · rw [if_neg (by rintro ⟨x, y⟩; exact hb x), IH.1, hmv, if_neg hb, Nat.zero_add]
        · simp only [execTrace, accSumS]
          rw [hstep]
          by_cases hb : bid = b
          · rw [if_pos ⟨hb, hacc⟩, IH.2.1, hms, if_pos hb, Nat.mod_add_mod, Nat.add_assoc]
          · rw [if_neg (by rintro ⟨x, y⟩; exact hb x), IH.2.1, hms, if_neg hb, Nat.zero_add]
        · simp only [execTrace, lastAccV]
          rw [hstep, IH.2.2, hmp]
          congr 1
          by_cases hbp : bid = b ∧ sender = p
          · rw [if_pos hbp, if_pos ⟨hbp.1, hbp.2, hacc⟩]
          · rw [if_neg hbp, if_neg (by rintro ⟨x, y, z⟩; exact hbp ⟨x, y⟩)]
      · have hsome : (applyOp st (Op.submitData sender now bid v s)).1.isSome = true := by
          simp [applyOp, Option.isSome_iff_ne_none, hacc]
        have hstep : execOp st (Op.submitData sender now bid v s) = st := by
          rw [execOp, applyOp_some st _ hsome]
        rw [hstep] at IH
        refine ⟨?_, ?_, ?_⟩
        · simp only [execTrace, accSumV]
          rw [hstep, if_neg (by rintro ⟨x, y⟩; exact hacc y), Nat.zero_add]
          exact IH.1
        · simp only [execTrace, accSumS]
          rw [hstep, if_neg (by rintro ⟨x, y⟩; exact hacc y), Nat.zero_add]
          exact IH.2.1
        · simp only [execTrace, lastAccV]
          rw [hstep, if_neg (by rintro ⟨x, y, z⟩; exact hacc z)]
          exact IH.2.2
    case transferOwnership a1 a2 =>
      obtain ⟨e1, e2, e3, e4, e5, e6, e7, e8⟩ :=
        execOp_env_frame st (Op.transferOwnership a1 a2) (fun _ _ _ _ _ h => Op.noConfusion h)
      refine ⟨?_, ?_, ?_⟩
      · have h1 := IH.1
        rw [e1] at h1
        simpa [execTrace, accSumV] using h1
      · have h2 := IH.2.1
        rw [e2] at h2
        simpa [execTrace, accSumS] using h2
      · have h3 := IH.2.2
        rw [e3] at h3
        simpa [execTrace, lastAccV] using h3
    case addProvider a1 a2 =>
      obtain ⟨e1, e2, e3, e4, e5, e6, e7, e8⟩ :=
        execOp_env_frame st (Op.addProvider a1 a2) (fun _ _ _ _ _ h => Op.noConfusion h)
      refine ⟨?_, ?_, ?_⟩
      · have h1 := IH.1
        rw [e1] at h1
        simpa [execTrace, accSumV] using h1
      · have h2 := IH.2.1
        rw [e2] at h2
        simpa [execTrace, accSumS] using h2
      · have h3 := IH.2.2
        rw [e3] at h3
        simpa [execTrace, lastAccV] using h3
    case removeProvider a1 a2 =>
      obtain ⟨e1, e2, e3, e4, e5, e6, e7, e8⟩ :=
        execOp_env_frame st (Op.removeProvider a1 a2) (fun _ _ _ _ _ h => Op.noConfusion h)
      refine ⟨?_, ?_, ?_⟩
      · have h1 := IH.1
        rw [e1] at h1
        simpa [execTrace, accSumV] using h1
      · have h2 := IH.2.1
        rw [e2] at h2
        simpa [execTrace, accSumS] using h2
      · have h3 := IH.2.2
        rw [e3] at h3
        simpa [execTrace, lastAccV] using h3
    case setCooldownSeconds a1 a2 =>
      obtain ⟨e1, e2, e3, e4, e5, e6, e7, e8⟩ :=
        execOp_env_frame st (Op.setCooldownSeconds a1 a2) (fun _ _ _ _ _ h => Op.noConfusion h)
      refine ⟨?_, ?_, ?_⟩
      · have h1 := IH.1
        rw [e1] at h1
        simpa [execTrace, accSumV] using h1
      · have h2 := IH.2.1
        rw [e2] at h2
        simpa [execTrace, accSumS] using h2
      · have h3 := IH.2.2
        rw [e3] at h3
        simpa [execTrace, lastAccV] using h3
    case pause a1 =>
      obtain ⟨e1, e2, e3, e4, e5, e6, e7, e8⟩ :=
        execOp_env_frame st (Op.pause a1) (fun _ _ _ _ _ h => Op.noConfusion h)
      refine ⟨?_, ?_, ?_⟩
      · have h1 := IH.1
        rw [e1] at h1
        simpa [execTrace, accSumV] using h1
      · have h2 := IH.2.1
        rw [e2] at h2
        simpa [execTrace, accSumS] using h2
      · have h3 := IH.2.2
        rw [e3] at h3
        simpa [execTrace, lastAccV] using h3
    case unpause a1 =>
      obtain ⟨e1, e2, e3, e4, e5, e6, e7, e8⟩ :=
        execOp_env_frame st (Op.unpause a1) (fun _ _ _ _ _ h => Op.noConfusion h)
      refine ⟨?_, ?_, ?_⟩
      · have h1 := IH.1
        rw [e1] at h1
        simpa [execTrace, accSumV] using h1
      · have h2 := IH.2.1
        rw [e2] at h2
        simpa [execTrace, accSumS] using h2
      · have h3 := IH.2.2
        rw [e3] at h3
        simpa [execTrace, lastAccV] using h3
    case openBatch a1 a2 =>
      obtain ⟨e1, e2, e3, e4, e5, e6, e7, e8⟩ :=
        execOp_env_frame st (Op.openBatch a1 a2) (fun _ _ _ _ _ h => Op.noConfusion h)
      refine ⟨?_, ?_, ?_⟩
      · have h1 := IH.1
        rw [e1] at h1
        simpa [execTrace, accSumV] using h1
      · have h2 := IH.2.1
        rw [e2] at h2
        simpa [execTrace, accSumS] using h2
      · have h3 := IH.2.2
        rw [e3] at h3
        simpa [execTrace, lastAccV] using h3
    case closeBatch a1 a2 =>
      obtain ⟨e1, e2, e3, e4, e5, e6, e7, e8⟩ :=
        execOp_env_frame st (Op.closeBatch a1 a2) (fun _ _ _ _ _ h => Op.noConfusion h)
      refine ⟨?_, ?_, ?_⟩
      · have h1 := IH.1
        rw [e1] at h1
        simpa [execTrace, accSumV] using h1
      · have h2 := IH.2.1
        rw [e2] at h2
        simpa [execTrace, accSumS] using h2
      · have h3 := IH.2.2
        rw [e3] at h3
        simpa [execTrace, lastAccV] using h3
    case requestBatchDecryption a1 a2 a3 =>
      obtain ⟨e1, e2, e3, e4, e5, e6, e7, e8⟩ :=
        execOp_env_frame st (Op.requestBatchDecryption a1 a2 a3) (fun _ _ _ _ _ h => Op.noConfusion h)
      refine ⟨?_, ?_, ?_⟩
      · have h1 := IH.1
        rw [e1] at h1
        simpa [execTrace, accSumV] using h1
      · have h2 := IH.2.1
        rw [e2] at h2
        simpa [execTrace, accSumS] using h2
      · have h3 := IH.2.2
        rw [e3] at h3
        simpa [execTrace, lastAccV] using h3
    case myCallback a1 a2 a3 =>
      obtain ⟨e1, e2, e3, e4, e5, e6, e7, e8⟩ :=
        execOp_env_frame st (Op.myCallback a1 a2 a3) (fun _ _ _ _ _ h => Op.noConfusion h)
      refine ⟨?_, ?_, ?_⟩
      · have h1 := IH.1
        rw [e1] at h1
        simpa [execTrace, accSumV] using h1
      · have h2 := IH.2.1
        rw [e2] at h2
        simpa [execTrace, accSumS] using h2
      · have h3 := IH.2.2
        rw [e3] at h3
        simpa [execTrace, lastAccV] using h3

theorem batch_mget_wf (st : ContractState) (hWF : BatchWF st) (k : Nat) :
    (mget batch0 st.batches k).closed = true → (mget batch0 st.batches k).exists_ = true :=
  mget_prop (P := fun bq : Batch => bq.closed = true → bq.exists_ = true) (by decide) hWF k

theorem execOp_batches_eq (st : ContractState) (op : Op)
    (h1 : ∀ a c, op ≠ Op.openBatch a c) (h2 : ∀ a c, op ≠ Op.closeBatch a c) :
    (execOp st op).batches = st.batches := by
  cases op <;>
    first
      | exact absurd rfl (h1 _ _)
      | exact absurd rfl (h2 _ _)
      | (simp only [execOp, applyOp, transferOwnership, addProvider, removeProvider,
          setCooldownSeconds, pause, unpause, requestBatchDecryption, requestBody,
          myCallback, submitData, hashCiphertexts]
         repeat' split
         all_goals first | rfl | exact submitBody_batches st _ _ _ _ _)

theorem batches_execOp (st : ContractState) (op : Op) (hWF : BatchWF st) (k : Nat) :
    ((mget batch0 st.batches k).exists_ = true →
      (mget batch0 (execOp st op).batches k).exists_ = true) ∧
    ((mget batch0 st.batches k).closed = true →
      (mget batch0 (execOp st op).batches k).closed = true) ∧
    BatchWF (execOp st op) := by
  cases op
  case openBatch a1 a2 =>
    simp only [execOp, applyOp, openBatch]
    repeat' split
    case _ => exact ⟨id, id, hWF⟩
    case _ => exact ⟨id, id, hWF⟩
    case _ => exact ⟨id, id, hWF⟩
    case _ hne =>
      have hne2 : (mget batch0 st.batches a2).exists_ = false := by
        simpa using hne
      refine ⟨?_, ?_, ?_⟩
      · intro hx
        by_cases hk : a2 = k
        · subst hk; rw [mget_mset_self]
        · show (mget batch0 (mset st.batches a2 ⟨true, false⟩) k).exists_ = true
          rw [mget_mset_ne _ _ _ hk]; exact hx
      · intro hx
        by_cases hk : a2 = k
        · subst hk
          have := batch_mget_wf st hWF a2 hx
          rw [this] at hne2
          exact absurd hne2 (by decide)
        · show (mget batch0 (mset st.batches a2 ⟨true, false⟩) k).closed = true
          rw [mget_mset_ne _ _ _ hk]; exact hx
      · intro q hq
        rcases List.mem_cons.mp hq with hq1 | hq2
        · subst hq1; intro hcl; exact Bool.noConfusion hcl
        · exact hWF q hq2
  case closeBatch a1 a2 =>
    simp only [execOp, applyOp, closeBatch]
    repeat' split
    case _ => exact ⟨id, id, hWF⟩
    case _ => exact ⟨id, id, hWF⟩
    case _ => exact ⟨id, id, hWF⟩
    case _ => exact ⟨id, id, hWF⟩
    case _ =>
      refine ⟨?_, ?_, ?_⟩
      · intro hx
        by_cases hk : a2 = k
        · subst hk; rw [mget_mset_self]
        · show (mget batch0 (mset st.batches a2 ⟨true, true⟩) k).exists_ = true
          rw [mget_mset_ne _ _ _ hk]; exact hx
      · intro hx
        by_cases hk : a2 = k
        · subst hk; rw [mget_mset_self]
        · show (mget batch0 (mset st.batches a2 ⟨true, true⟩) k).closed = true
          rw [mget_mset_ne _ _ _ hk]; exact hx
      · intro q hq
        rcases List.mem_cons.mp hq with hq1 | hq2
        · subst hq1; intro _; rfl
        · exact hWF q hq2
  all_goals {
    refine ⟨?_, ?_, ?_⟩ <;>
      first
        | (rw [execOp_batches_eq st _ (fun _ _ h => Op.noConfusion h)
              (fun _ _ h => Op.noConfusion h)]
           exact id)
        | (unfold BatchWF
           rw [execOp_batches_eq st _ (fun _ _ h => Op.noConfusion h)
              (fun _ _ h => Op.noConfusion h)]
           exact hWF) }

theorem batches_trace (tr : List Op) : ∀ st, BatchWF st → ∀ k,
    ((mget batch0 st.batches k).exists_ = true →
      (mget batch0 (execTrace st tr).batches k).exists_ = true) ∧
    ((mget batch0 st.batches k).closed = true →
      (mget batch0 (execTrace st tr).batches k).closed = true) ∧
    BatchWF (execTrace st tr) := by
  induction tr with
  | nil => intro st h k; exact ⟨id, id, h⟩
  | cons op tr ih =>
    intro st h k
    obtain ⟨s1, s2, s3⟩ := batches_execOp st op h k
    obtain ⟨t1, t2, t3⟩ := ih (execOp st op) s3 k
    simp only [execTrace]
    exact ⟨fun hx => t1 (s1 hx), fun hx => t2 (s2 hx), t3⟩

theorem batchWF_init (deployer self : Nat) : BatchWF (init deployer self) := by
  simp [init, initIfNeeded, asEuint32, ct0, BatchWF]

theorem submitBody_fields (st : ContractState) (sender now batchId value shares : Nat) :
    (submitBody st sender now batchId value shares).decryptionContexts = st.decryptionContexts ∧
    (submitBody st sender now batchId value shares).lastSubmissionTime =
      mset st.lastSubmissionTime sender now ∧
    (submitBody st sender now batchId value shares).selfAddr = st.selfAddr := by
  refine ⟨?_, ?_, ?_⟩ <;>
    (simp only [submitBody, initIfNeeded, asEuint32, addCt]
     repeat' split
     all_goals rfl)

/-! ### Claims -/

/-- Claim C1: a decryption callback is finalized at most once per request id;
once the stored context is processed, any further callback with that request
id fails with ReplayAttempt — whatever the cleartexts and however the proof
verifies — and the state (event log included) is unchanged. -/
theorem callback_at_most_once (st : ContractState) (requestId : Nat)
    (cleartexts : Nat × Nat) (sigOk : Bool)
    (h : (mget dctx0 st.decryptionContexts requestId).processed = true) :
    myCallback st requestId cleartexts sigOk = (some Err.ReplayAttempt, st) := by
  simp [myCallback, h]

/-- Witness for C1: in the concrete scenario, request id 0 is processed and a
replayed callback with a verifying proof is rejected with ReplayAttempt. -/
theorem callback_at_most_once_witness :
    myCallback stDone 0 (110, 10) true = (some Err.ReplayAttempt, stDone) :=
  callback_at_most_once stDone 0 (110, 10) true (by decide)

/-- Claim C10: a callback for a request id that was never issued finds the
all-zero default context: the replay check passes but the recomputed keccak
commitment (never the zero hash) differs from the stored zero hash, so the
call fails with StateMismatch and nothing is marked processed or emitted. -/
theorem callback_unissued_id (st : ContractState) (requestId : Nat)
    (cleartexts : Nat × Nat) (sigOk : Bool)
    (h : mget dctx0 st.decryptionContexts requestId = dctx0) :
    myCallback st requestId cleartexts sigOk = (some Err.StateMismatch, st) := by
  simp only [myCallback]
  rw [h]
  simp [dctx0, hashCiphertexts]

/-- Witness for C10: calling back request id 99, never issued in the concrete
scenario, fails with StateMismatch and leaves the state unchanged. -/
theorem callback_unissued_id_witness :
    myCallback stReq 99 (1, 2) true = (some Err.StateMismatch, stReq) :=
  callback_unissued_id stReq 99 (1, 2) true (by decide)

/-- Counterexample to C3 as stated: with the contract paused and a pending
request, the decryption callback does not fail with Paused — it succeeds and
flips the processed flag even though the pause flag is set. -/
theorem callback_ignores_pause_cex :
    stReqPaused.paused = true ∧
    (myCallback stReqPaused 0 (110, 10) true).1 = none ∧
    (mget dctx0 (myCallback stReqPaused 0 (110, 10) true).2.decryptionContexts 0).processed
      = true := by
  decide

/-- Claim C3 (amended): openBatch, closeBatch, submitData and
requestBatchDecryption check the pause flag after their access-control
modifier and fail with Paused when it is set; the decryption callback
performs no pause check (see the counterexample). -/
theorem pause_gates_entry_points (st : ContractState) (sender now batchId value shares : Nat)
    (hp : st.paused = true) :
    (sender = st.owner → openBatch st sender batchId = (some Err.Paused, st)) ∧
    (sender = st.owner → closeBatch st sender batchId = (some Err.Paused, st)) ∧
    (mget false st.isProvider sender = true →
      submitData st sender now batchId value shares = (some Err.Paused, st)) ∧
    (sender = st.owner → requestBatchDecryption st sender now batchId = (some Err.Paused, st)) := by
  refine ⟨?_, ?_, ?_, ?_⟩ <;> intro h
  · simp [openBatch, h, hp]
  · simp [closeBatch, h, hp]
  · simp [submitData, h, hp]
  · simp [requestBatchDecryption, h, hp]

/-- Witness for amended C3: while paused, the owner's openBatch and the
provider's submitData both fail with Paused. -/
theorem pause_gates_entry_points_witness :
    openBatch stReqPaused 100 9 = (some Err.Paused, stReqPaused) ∧
    submitData stReqPaused 3 200 1 5 5 = (some Err.Paused, stReqPaused) :=
  ⟨(pause_gates_entry_points stReqPaused 100 200 9 0 0 (by decide)).1 (by decide),
   (pause_gates_entry_points stReqPaused 3 200 1 5 5 (by decide)).2.2.1 (by decide)⟩

/-- Claim C5 is violated by the code (code bug): on the first accepted
submission to a freshly opened batch, the per-batch running total read as the
left operand of the homomorphic add is the uninitialized handle 0
(`_initIfNeeded` touches only the two global totals and `_requireInitialized`
is never called), yet the call is accepted and performs the add; the global
totals, by contrast, are initialized. -/
theorem uninitialized_batch_total_add :
    isInitialized (mget ct0 stOpen.batchEncryptedValue 1) = false ∧
    isInitialized stOpen.totalEncryptedValue = true ∧
    isInitialized stOpen.totalEncryptedShares = true ∧
    (submitData stOpen 3 60 1 100 10).1 = none ∧
    (mget ct0 (submitData stOpen 3 60 1 100 10).2.batchEncryptedValue 1).1 ≠ 0 := by
  decide

/-- Claim C4: submitData is accepted iff the caller is a registered provider,
the system is unpaused, the batch exists and is open, and the caller's
submission cooldown has elapsed; each failing precondition rejects the call
with its typed error in check order, and the cooldown timestamp is written
(set to the call's timestamp) only on an accepted call. -/
theorem submitData_accepted_iff (st : ContractState) (sender now batchId value shares : Nat) :
    ((submitData st sender now batchId value shares).1 = none ↔
      (mget false st.isProvider sender = true ∧ st.paused = false ∧
       (mget batch0 st.batches batchId).exists_ = true ∧
       (mget batch0 st.batches batchId).closed = false ∧
       mget 0 st.lastSubmissionTime sender + st.cooldownSeconds ≤ now)) ∧
    (mget false st.isProvider sender = false →
      submitData st sender now batchId value shares = (some Err.NotProvider, st)) ∧
    (mget false st.isProvider sender = true → st.paused = true →
      submitData st sender now batchId value shares = (some Err.Paused, st)) ∧
    (mget false st.isProvider sender = true → st.paused = false →
      now < mget 0 st.lastSubmissionTime sender + st.cooldownSeconds →
      submitData st sender now batchId value shares = (some Err.CooldownActive, st)) ∧
    (mget false st.isProvider sender = true → st.paused = false →
      mget 0 st.lastSubmissionTime sender + st.cooldownSeconds ≤ now →
      (mget batch0 st.batches batchId).exists_ = false →
      submitData st sender now batchId value shares = (some Err.BatchDoesNotExist, st)) ∧
    (mget false st.isProvider sender = true → st.paused = false →
      mget 0 st.lastSubmissionTime sender + st.cooldownSeconds ≤ now →
      (mget batch0 st.batches batchId).exists_ = true →
      (mget batch0 st.batches batchId).closed = true →
      submitData st sender now batchId value shares = (some Err.BatchClosed, st)) ∧
    ((submitData st sender now batchId value shares).1 = none →
      mget 0 (submitData st sender now batchId value shares).2.lastSubmissionTime sender = now) ∧
    ((submitData st sender now batchId value shares).1 ≠ none →
      (submitData st sender now batchId value shares).2 = st) := by
  have hsf := (submitBody_fields st sender now batchId value shares).2.1
  unfold submitData
  repeat' split
  all_goals simp_all [mget_mset_self, Nat.not_lt, Nat.not_le]

/-- Witness for C4: in the concrete scenario the provider's submission is
accepted at time 60, and a non-provider caller is rejected with NotProvider. -/
theorem submitData_accepted_iff_witness :
    (submitData stOpen 3 60 1 100 10).1 = none ∧
    submitData stOpen 4 60 1 100 10 = (some Err.NotProvider, stOpen) :=
  ⟨(submitData_accepted_iff stOpen 3 60 1 100 10).1.mpr (by decide),
   (submitData_accepted_iff stOpen 4 60 1 100 10).2.1 (by decide)⟩

/-- Claim C8: requestBatchDecryption is accepted iff the caller is the owner,
the system is unpaused, the decryption-request cooldown (tracked separately
from the submission cooldown) has elapsed, and the batch exists — whether
open or closed (a closed batch never blocks a request); a never-opened batch
id fails with BatchDoesNotExist; acceptance stamps only the
decryption-request timestamp, leaving the submission timestamps untouched. -/
theorem requestDecryption_spec (st : ContractState) (sender now batchId : Nat) :
    ((requestBatchDecryption st sender now batchId).1 = none ↔
      (sender = st.owner ∧ st.paused = false ∧
       mget 0 st.lastDecryptionRequestTime sender + st.cooldownSeconds ≤ now ∧
       (mget batch0 st.batches batchId).exists_ = true)) ∧
    (sender = st.owner → st.paused = false →
      mget 0 st.lastDecryptionRequestTime sender + st.cooldownSeconds ≤ now →
      (mget batch0 st.batches batchId).exists_ = true →
      (mget batch0 st.batches batchId).closed = true →
      (requestBatchDecryption st sender now batchId).1 = none) ∧
    (sender = st.owner → st.paused = false →
      mget 0 st.lastDecryptionRequestTime sender + st.cooldownSeconds ≤ now →
      (mget batch0 st.batches batchId).exists_ = false →
      requestBatchDecryption st sender now batchId = (some Err.BatchDoesNotExist, st)) ∧
    ((requestBatchDecryption st sender now batchId).1 = none →
      mget 0 (requestBatchDecryption st sender now batchId).2.lastDecryptionRequestTime sender
        = now ∧
      (requestBatchDecryption st sender now batchId).2.lastSubmissionTime
        = st.lastSubmissionTime) := by
  have hrb := requestBody_eq st sender now batchId
  unfold requestBatchDecryption
  repeat' split
  all_goals simp_all [mget_mset_self, Nat.not_lt, Nat.not_le]

/-- Witness for C8: decryption can be requested on the closed batch 1, and on
the never-opened batch 7 the request fails with BatchDoesNotExist. -/
theorem requestDecryption_spec_witness :
    (requestBatchDecryption stClosed 100 60 1).1 = none ∧
    requestBatchDecryption stClosed 100 60 7 = (some Err.BatchDoesNotExist, stClosed) :=
  ⟨(requestDecryption_spec stClosed 100 60 1).2.1 (by decide) (by decide) (by decide)
      (by decide) (by decide),
   (requestDecryption_spec stClosed 100 60 7).2.2.1 (by decide) (by decide) (by decide)
      (by decide)⟩

/-- Claim C9: every entry point is atomic — a call that fails with a typed
error returns the state exactly as it was (the embedding performs no write
before any check, mirroring EVM revert semantics) — and the callback flips
the processed flag only after the replay check, the state-hash check and the
proof verification have all passed, its only state changes being that flag
and the completion event. -/
theorem atomic_calls (st : ContractState) :
    (∀ op : Op, (applyOp st op).1.isSome = true → (applyOp st op).2 = st) ∧
    (∀ (requestId : Nat) (cleartexts : Nat × Nat) (sigOk : Bool),
      (myCallback st requestId cleartexts sigOk).1 = none →
        (mget dctx0 st.decryptionContexts requestId).processed = false ∧
        hashCiphertexts st (mget dctx0 st.decryptionContexts requestId).batchId =
          (mget dctx0 st.decryptionContexts requestId).stateHash ∧
        sigOk = true ∧
        (myCallback st requestId cleartexts sigOk).2 =
          { st with
            decryptionContexts := mset st.decryptionContexts requestId
              ⟨(mget dctx0 st.decryptionContexts requestId).batchId,
                (mget dctx0 st.decryptionContexts requestId).stateHash, true⟩,
            events := st.events ++
              [Event.DecryptionCompleted requestId
                (mget dctx0 st.decryptionContexts requestId).batchId
                (cleartexts.1 % W) (cleartexts.2 % W)] }) := by
  refine ⟨fun op h => applyOp_some st op h, ?_⟩
  intro requestId cleartexts sigOk h
  unfold myCallback at h ⊢
  repeat' split at h <;> simp_all

/-- Witness for C9: a rejected openBatch by a non-owner leaves the deployed
state unchanged, and the accepted concrete callback satisfies the check/flip
characterization. -/
theorem atomic_calls_witness :
    (applyOp st0 (Op.openBatch 999 1)).2 = st0 ∧
    (mget dctx0 stReq.decryptionContexts 0).processed = false :=
  ⟨(atomic_calls st0).1 (Op.openBatch 999 1) (by decide),
   ((atomic_calls stReq).2 0 (110, 10) true (by decide)).1⟩

/-- Claim C6: per batch id the state machine is nonexistent → open → closed
with closed terminal — opening an existing id fails with InvalidBatch,
closing a never-opened id fails with BatchDoesNotExist, closing a closed
batch fails with BatchClosed, and along any trace of calls an existing batch
stays existing and a closed batch stays closed. -/
theorem batch_state_machine (st : ContractState) (sender k : Nat) :
    (sender = st.owner → st.paused = false →
      (((mget batch0 st.batches k).exists_ = true →
         openBatch st sender k = (some Err.InvalidBatch, st)) ∧
       ((mget batch0 st.batches k).exists_ = false →
         closeBatch st sender k = (some Err.BatchDoesNotExist, st)) ∧
       ((mget batch0 st.batches k).exists_ = true →
        (mget batch0 st.batches k).closed = true →
         closeBatch st sender k = (some Err.BatchClosed, st)))) ∧
    (BatchWF st → ∀ tr : List Op,
      ((mget batch0 st.batches k).exists_ = true →
        (mget batch0 (execTrace st tr).batches k).exists_ = true) ∧
      ((mget batch0 st.batches k).closed = true →
        (mget batch0 (execTrace st tr).batches k).closed = true)) := by
  refine ⟨?_, ?_⟩
  · intro ho hp
    refine ⟨?_, ?_, ?_⟩
    · intro hex; simp [openBatch, ho, hp, hex]
    · intro hex; simp [closeBatch, ho, hp, hex]
    · intro hex hcl; simp [closeBatch, ho, hp, hex, hcl]
  · intro hWF tr
    obtain ⟨t1, t2, t3⟩ := batches_trace tr st hWF k
    exact ⟨t1, t2⟩

/-- Witness for C6: re-opening the open batch 1 fails with InvalidBatch, and
batch 1 still exists after a trace that closes it. -/
theorem batch_state_machine_witness :
    openBatch stOpen 100 1 = (some Err.InvalidBatch, stOpen) ∧
    (mget batch0 (execTrace stOpen [Op.closeBatch 100 1]).batches 1).exists_ = true :=
  ⟨((batch_state_machine stOpen 100 1).1 (by decide) (by decide)).1 (by decide),
   ((batch_state_machine stOpen 100 1).2 (by decide) [Op.closeBatch 100 1]).1 (by decide)⟩

/-- Claim C7: starting from deployment, after any trace of calls the batch's
running encrypted totals hold the 32-bit wrapping sum of the value (resp.
shares) arguments of every accepted submitData call to that batch — repeat
submissions by the same provider included — while the per-provider record
holds only the (truncated) value of that provider's latest accepted
submission. -/
theorem batch_totals_sum (deployer self : Nat) (tr : List Op) (b p : Nat) :
    ((mget ct0 (execTrace (init deployer self) tr).batchEncryptedValue b).2 =
      accSumV b (init deployer self) tr % W) ∧
    ((mget ct0 (execTrace (init deployer self) tr).batchEncryptedShares b).2 =
      accSumS b (init deployer self) tr % W) ∧
    ((mget ct0 (execTrace (init deployer self) tr).providerEncryptedValue (b, p)).2 =
      lastAccV b p 0 (init deployer self) tr) := by
  obtain ⟨g1, g2, g3⟩ := ledger_trace b p tr (init deployer self) (envInv_init deployer self)
  have e1 : (mget ct0 (init deployer self).batchEncryptedValue b).2 = 0 := rfl
  have e2 : (mget ct0 (init deployer self).batchEncryptedShares b).2 = 0 := rfl
  have e3 : (mget ct0 (init deployer self).providerEncryptedValue (b, p)).2 = 0 := rfl
  rw [e1, Nat.zero_add] at g1
  rw [e2, Nat.zero_add] at g2
  rw [e3] at g3
  exact ⟨g1, g2, g3⟩

/-- Claim C2: if a decryption request is issued and an accepted submission
then lands on the same batch (changing its ciphertext handles) before the
callback, the callback recomputes the keccak commitment from the batch's
current handles and the contract address, finds it different from the hash
stored at request time, and fails with StateMismatch — whatever cleartexts
and proof are supplied. -/
theorem callback_detects_state_change (st : ContractState) (o now b now2 p v s : Nat)
    (rid : Nat) (st1 st2 : ContractState) (cleartexts : Nat × Nat) (sigOk : Bool)
    (hInv : EnvInv st)
    (hrid : rid = st.nextRequestId)
    (hreq : requestBatchDecryption st o now b = (none, st1))
    (hsub : submitData st1 p now2 b v s = (none, st2)) :
    myCallback st2 rid cleartexts sigOk = (some Err.StateMismatch, st2) := by
  obtain ⟨h0, ha1, ha2, hb1, hb2, hc1, hc2, hm1, hm2, hm3, hm4⟩ := hInv
  have hvlt : (mget ct0 st.batchEncryptedValue b).1 < st.nextHandle :=
    mget_prop (P := fun c : Ct => c.1 < st.nextHandle) h0 (fun q hq => (hm1 q hq).1) b
  have hst1 : st1 = requestBody st o now b := by
    have heq := request_none_eq st o now b (by rw [hreq])
    rw [heq] at hreq
    exact ((Prod.ext_iff.mp hreq).2).symm
  have hst1tv : st1.totalEncryptedValue = st.totalEncryptedValue := by
    rw [hst1, requestBody_eq]
  have hst1ts : st1.totalEncryptedShares = st.totalEncryptedShares := by
    rw [hst1, requestBody_eq]
  have hst1nh : st1.nextHandle = st.nextHandle := by
    rw [hst1, requestBody_eq]
  have hst1bv : st1.batchEncryptedValue = st.batchEncryptedValue := by
    rw [hst1, requestBody_eq]
  have hst1dc : st1.decryptionContexts =
      mset st.decryptionContexts st.nextRequestId ⟨b, hashCiphertexts st b, false⟩ := by
    rw [hst1, requestBody_eq]
  have hst2 : st2 = submitBody st1 p now2 b v s := by
    have heq := submitData_none_eq st1 p now2 b v s (by rw [hsub])
    rw [heq] at hsub
    exact ((Prod.ext_iff.mp hsub).2).symm
  have hsb := submitBody_eq st1 p now2 b v s
    (by rw [hst1tv]; omega) (by rw [hst1ts]; omega)
  have hst2dc : st2.decryptionContexts = st1.decryptionContexts := by
    rw [hst2]
    exact (submitBody_fields st1 p now2 b v s).1
  have hctx : mget dctx0 st2.decryptionContexts rid = ⟨b, hashCiphertexts st b, false⟩ := by
    rw [hst2dc, hst1dc, hrid, mget_mset_self]
  have hcur : (mget ct0 st2.batchEncryptedValue b).1 = st.nextHandle + 2 := by
    rw [hst2, hsb]
    show (mget ct0 (mset st1.batchEncryptedValue b _) b).1 = st.nextHandle + 2
    rw [mget_mset_self, hst1nh]
  have hne : hashCiphertexts st2 b ≠ hashCiphertexts st b := by
    intro hcontra
    simp only [hashCiphertexts, Option.some.injEq, Prod.mk.injEq] at hcontra
    obtain ⟨hc1', -⟩ := hcontra
    rw [hcur] at hc1'
    omega
  simp only [myCallback]
  rw [hctx]
  simp [hne]

/-- Witness for C2: in the concrete scenario, a submission accepted after the
request makes the pending callback for request id 0 fail with StateMismatch
even with a verifying proof. -/
theorem callback_detects_state_change_witness :
    myCallback stReqSub 0 (1, 2) true = (some Err.StateMismatch, stReqSub) :=
  callback_detects_state_change stSub 100 60 1 120 3 50 5 0 stReq stReqSub (1, 2) true
    (by decide) (by decide) (by decide) (by decide)
